import Mathlib

/-!
Verification development for the sm2-sd-2023 selective-disclosure cryptosuite.

The JavaScript sources are shallowly embedded:
* JS `Uint8Array` buffers become `Bytes := List ℕ` (each element a byte value);
  `instanceof Uint8Array` type tests are subsumed by the Lean typing.
* JS strings become `Str := List Char`; `String.prototype.slice(k)` becomes
  `List.drop k`, string concatenation becomes list append.
* JS `Map` objects (which preserve insertion order) become association lists.
* Thrown JS errors become the `.error` branch of `Except JsError`; an error
  object carries its constructor name, its message and, when `err.cause` was
  set, the causing error.
* External collaborators (the `cborg` CBOR codec, `base64url-universal`,
  `@digitalbazaar/di-sd-primitives` canonicalization, the SM2 signature
  primitive) are not part of this repository; they are passed in as explicit
  function parameters, so every theorem quantifies over their behaviour.
-/

/-- Byte buffers (`Uint8Array` values). -/
abbrev Bytes := List ℕ

/-- JS strings, modelled as their character sequences. -/
abbrev Str := List Char

/-- A thrown JS error: constructor name, message, and optional `cause`. -/
inductive JsError where
  | mk (ctorName message : String) : JsError
  | withCause (ctorName message : String) (cause : JsError) : JsError
deriving DecidableEq, Repr

/-! ### Decimal digits

`_compressLabelMap` uses the JS builtin `parseInt(s, 10)` and
`_decompressLabelMap` uses JS template interpolation of a number, i.e. the
standard decimal representation.  Both builtins are modelled here. -/

/-- The character for a single decimal digit value. -/
def digitChar (d : ℕ) : Char := Char.ofNat (48 + d)

/-- Decimal representation of a natural number, most significant digit first
(the JS number-to-string conversion used by the template literal in
`_decompressLabelMap`). -/
def decReprList (n : ℕ) : Str :=
  if _h : n < 10 then [digitChar n]
  else decReprList (n / 10) ++ [digitChar (n % 10)]
termination_by n
decreasing_by
  exact Nat.div_lt_self (by omega) (by omega)

/-- Model of the JS builtin `parseInt(s, 10)` as used on label-map keys:
read the longest leading run of decimal digits; an empty run is `NaN`,
modelled as `none`. -/
def jsParseInt (s : Str) : Option ℕ :=
  let ds := s.takeWhile Char.isDigit
  if ds.isEmpty then none
  else some (ds.foldl (fun a c => a * 10 + (c.toNat - 48)) 0)

theorem digitChar_isDigit {d : ℕ} (h : d < 10) :
    (digitChar d).isDigit = true ∧ (digitChar d).toNat = 48 + d := by
  interval_cases d <;> exact ⟨by decide, by decide⟩

theorem decReprList_digits (n : ℕ) :
    (∀ c ∈ decReprList n, c.isDigit = true) ∧ decReprList n ≠ [] := by
  rw [decReprList]
  by_cases h : n < 10
  · rw [dif_pos h]
    refine ⟨?_, by simp⟩
    intro c hc
    rw [List.mem_singleton] at hc
    subst hc
    exact (digitChar_isDigit h).1
  · rw [dif_neg h]
    have ih := decReprList_digits (n / 10)
    refine ⟨?_, by simp⟩
    intro c hc
    rw [List.mem_append] at hc
    rcases hc with hc | hc
    · exact ih.1 c hc
    · rw [List.mem_singleton] at hc
      subst hc
      exact (digitChar_isDigit (Nat.mod_lt _ (by omega))).1
termination_by n
decreasing_by
  exact Nat.div_lt_self (by omega) (by omega)

theorem decReprList_foldl (n : ℕ) (a : ℕ) :
    (decReprList n).foldl (fun a c => a * 10 + (c.toNat - 48)) a =
      a * 10 ^ (decReprList n).length + n := by
  rw [decReprList]
  by_cases h : n < 10
  · rw [dif_pos h]
    simp [List.foldl, (digitChar_isDigit h).2]
  · rw [dif_neg h]
    have ih := decReprList_foldl (n / 10) a
    rw [List.foldl_append]
    simp only [List.foldl, ih, (digitChar_isDigit (Nat.mod_lt _ (by omega))).2,
      List.length_append, List.length_singleton]
    have hmod : 48 + n % 10 - 48 = n % 10 := by omega
    rw [hmod, pow_succ]
    have := Nat.div_add_mod n 10
    ring_nf
    omega
termination_by n
decreasing_by
  exact Nat.div_lt_self (by omega) (by omega)

theorem jsParseInt_decReprList (n : ℕ) : jsParseInt (decReprList n) = some n := by
  unfold jsParseInt
  have hall : (decReprList n).takeWhile Char.isDigit = decReprList n :=
    List.takeWhile_eq_self_iff.mpr (decReprList_digits n).1
  simp only [hall]
  have hne : (decReprList n).isEmpty = false := by
    cases hd : decReprList n with
    | nil => exact absurd hd (decReprList_digits n).2
    | cons c t => simp
  simp only [hne, if_neg Bool.false_ne_true]
  rw [decReprList_foldl n 0]
  simp

/-! ### Discloser index bookkeeping (`_createDisclosureData`)

The JS source filters the per-statement signatures with a side-effecting
predicate that advances a shared cursor `index` over the original absolute
statement index space:

```
let index = 0;
const filteredSignatures = signatures.filter(() => {
  while(mandatoryGroup.matching.has(index)) { index++; }
  return selectiveGroup.matching.has(index++);
});
```

`nextFree` is the inner `while` loop (skip cursor past mandatory indexes),
`filterSignaturesAux` is the stateful `filter` pass.  Group membership uses
the key sets of the JS `matching` maps, modelled as lists of indexes. -/

/-- Largest element of a list of naturals (0 for the empty list); used only
as a termination measure for `nextFree`. -/
def listMax (l : List ℕ) : ℕ := l.foldr max 0

theorem le_listMax_of_mem {l : List ℕ} {a : ℕ} (h : a ∈ l) : a ≤ listMax l := by
  induction l with
  | nil => cases h
  | cons b t ih =>
    rw [List.mem_cons] at h
    rcases h with h | h
    · subst h; exact le_max_left _ _
    · exact le_trans (ih h) (le_max_right _ _)

/-- The `while(mandatoryGroup.matching.has(index)) index++;` loop: the first
index at or after `i` that is not in the mandatory index set. -/
def nextFree (mand : List ℕ) (i : ℕ) : ℕ :=
  if i ∈ mand then nextFree mand (i + 1) else i
termination_by listMax mand + 1 - i
decreasing_by
  have := le_listMax_of_mem (by assumption)
  omega

theorem nextFree_of_mem {mand : List ℕ} {i : ℕ} (h : i ∈ mand) :
    nextFree mand i = nextFree mand (i + 1) := by
  rw [nextFree, if_pos h]

theorem nextFree_of_not_mem {mand : List ℕ} {i : ℕ} (h : i ∉ mand) :
    nextFree mand i = i := by
  rw [nextFree, if_neg h]

/-- The term `nextFree` lands outside the mandatory set, never moves backwards, and
skips only mandatory indexes. -/
theorem nextFree_spec (mand : List ℕ) (i : ℕ) :
    nextFree mand i ∉ mand ∧ i ≤ nextFree mand i ∧
      ∀ k, i ≤ k → k < nextFree mand i → k ∈ mand := by
  by_cases h : i ∈ mand
  · have ih := nextFree_spec mand (i + 1)
    rw [nextFree_of_mem h]
    refine ⟨ih.1, by omega, ?_⟩
    intro k hk hk2
    rcases Nat.eq_or_lt_of_le hk with he | hlt
    · subst he; exact h
    · exact ih.2.2 k (by omega) hk2
  · rw [nextFree_of_not_mem h]
    refine ⟨h, le_refl i, ?_⟩
    intro k hk hk2
    exact absurd (lt_of_le_of_lt hk hk2) (lt_irrefl i)
termination_by listMax mand + 1 - i
decreasing_by
  have := le_listMax_of_mem (by assumption)
  omega

/-- The stateful `signatures.filter(...)` pass from `_createDisclosureData`,
carrying the shared cursor explicitly. -/
def filterSignaturesAux {α : Type} (mand sel : List ℕ) : List α → ℕ → List α
  | [], _ => []
  | s :: rest, i =>
    let j := nextFree mand i
    if j ∈ sel then s :: filterSignaturesAux mand sel rest (j + 1)
    else filterSignaturesAux mand sel rest (j + 1)

/-- Signature filtering as performed by `_createDisclosureData` (cursor
starts at 0). -/
def filterSignatures {α : Type} (mand sel : List ℕ) (sigs : List α) : List α :=
  filterSignaturesAux mand sel sigs 0

/-- The ascending enumeration of the first `n` non-mandatory absolute
indexes, starting the scan at `i`.  The `j`-th entry (from `i = 0`) is the
original absolute statement index of the `j`-th per-statement signature. -/
def nonMandIndexesFrom (mand : List ℕ) : ℕ → ℕ → List ℕ
  | 0, _ => []
  | n + 1, i =>
    let j := nextFree mand i
    j :: nonMandIndexesFrom mand n (j + 1)

theorem filterSignaturesAux_eq {α : Type} (mand sel : List ℕ) (sigs : List α) (i : ℕ) :
    filterSignaturesAux mand sel sigs i =
      ((sigs.zip (nonMandIndexesFrom mand sigs.length i)).filter
        (fun p => decide (p.2 ∈ sel))).map Prod.fst := by
  induction sigs generalizing i with
  | nil => rfl
  | cons s rest ih =>
    by_cases h : nextFree mand i ∈ sel
    · simp [filterSignaturesAux, nonMandIndexesFrom, List.filter_cons, h, ih]
    · simp [filterSignaturesAux, nonMandIndexesFrom, List.filter_cons, h, ih]

theorem nonMandIndexesFrom_spec (mand : List ℕ) (n i : ℕ) :
    (∀ j ∈ nonMandIndexesFrom mand n i, j ∉ mand ∧ i ≤ j) ∧
      (nonMandIndexesFrom mand n i).Pairwise (· < ·) := by
  induction n generalizing i with
  | zero =>
    refine ⟨?_, List.Pairwise.nil⟩
    intro j hj
    cases hj
  | succ m ih =>
    obtain ⟨hmem, hpair⟩ := ih (nextFree mand i + 1)
    have hspec := nextFree_spec mand i
    constructor
    · intro j hj
      rw [nonMandIndexesFrom, List.mem_cons] at hj
      rcases hj with hj | hj
      · subst hj; exact ⟨hspec.1, hspec.2.1⟩
      · exact ⟨(hmem j hj).1, by have := (hmem j hj).2; omega⟩
    · rw [nonMandIndexesFrom]
      exact List.Pairwise.cons (fun j hj => by have := (hmem j hj).2; omega) hpair

/-- No non-mandatory index is skipped: every non-mandatory index below a
retained one (and at or after the scan start) is itself enumerated. -/
theorem nonMandIndexesFrom_gapfree (mand : List ℕ) (n i : ℕ) :
    ∀ j ∈ nonMandIndexesFrom mand n i, ∀ k, i ≤ k → k < j → k ∉ mand →
      k ∈ nonMandIndexesFrom mand n i := by
  induction n generalizing i with
  | zero => intro j hj; cases hj
  | succ m ih =>
    intro j hj k hik hkj hkm
    have hspec := nextFree_spec mand i
    rw [nonMandIndexesFrom, List.mem_cons] at hj ⊢
    rcases hj with hj | hj
    · subst hj
      exact absurd (hspec.2.2 k hik hkj) hkm
    · by_cases hk : k < nextFree mand i
      · exact absurd (hspec.2.2 k hik hk) hkm
      · rcases Nat.eq_or_lt_of_le (Nat.le_of_not_lt hk) with he | hlt
        · exact Or.inl he.symm
        · exact Or.inr (ih (nextFree mand i + 1) j hj k hlt hkj hkm)

/-! ### Relative mandatory indexes (`_createDisclosureData`)

```
let relativeIndex = 0;
const mandatoryIndexes = [];
for(const absoluteIndex of combinedGroup.matching.keys()) {
  if(mandatoryGroup.matching.has(absoluteIndex)) {
    mandatoryIndexes.push(relativeIndex);
  }
  relativeIndex++;
}
```
-/

/-- The loop body above with the running `relativeIndex` made explicit. -/
def computeMandatoryIndexesAux (mand : List ℕ) : List ℕ → ℕ → List ℕ
  | [], _ => []
  | a :: rest, r =>
    if a ∈ mand then r :: computeMandatoryIndexesAux mand rest (r + 1)
    else computeMandatoryIndexesAux mand rest (r + 1)

/-- The term `mandatoryIndexes` as computed by `_createDisclosureData`: walk the
combined group keys, counting a fresh relative index from 0, and record the
relative index when the absolute index is also mandatory. -/
def computeMandatoryIndexes (mand combined : List ℕ) : List ℕ :=
  computeMandatoryIndexesAux mand combined 0

theorem computeMandatoryIndexesAux_eq (mand : List ℕ) (combined : List ℕ) (r : ℕ) :
    computeMandatoryIndexesAux mand combined r =
      ((List.enumFrom r combined).filter (fun p => decide (p.2 ∈ mand))).map Prod.fst := by
  induction combined generalizing r with
  | nil => rfl
  | cons a rest ih =>
    by_cases h : a ∈ mand
    · simp [computeMandatoryIndexesAux, List.enumFrom, List.filter_cons, h, ih]
    · simp [computeMandatoryIndexesAux, List.enumFrom, List.filter_cons, h, ih]

/-! ### Proof-value codec (`proofValue.js`) -/

/-- The term `const CBOR_PREFIX_BASE = new Uint8Array([0xd9, 0x5d, 0x00]);` -/
def CBOR_PREFIX_BASE : Bytes := [0xd9, 0x5d, 0x00]

/-- The term `const CBOR_PREFIX_DERIVED = new Uint8Array([0xd9, 0x5d, 0x01]);` -/
def CBOR_PREFIX_DERIVED : Bytes := [0xd9, 0x5d, 0x01]

/-- The term `_startsWithBytes(buffer, prefix)`: out-of-range reads give `undefined`
(modelled by `none`), which compares unequal to every prefix byte. -/
def _startsWithBytes (buffer pfx : Bytes) : Bool :=
  (List.range pfx.length).all (fun i => decide (buffer.get? i = pfx.get? i))

theorem startsWithBytes_append (pfx rest : Bytes) :
    _startsWithBytes (pfx ++ rest) pfx = true := by
  unfold _startsWithBytes
  rw [List.all_eq_true]
  intro i hi
  rw [List.mem_range] at hi
  rw [List.get?_append hi]
  simp

/-- Decoded base proof payload fields, in wire order:
`(baseSignature, publicKey, hmacKey, signatures, mandatoryPointers)`. -/
structure BaseProofParams where
  baseSignature : Bytes
  publicKey : Bytes
  hmacKey : Bytes
  signatures : List Bytes
  mandatoryPointers : List Str
deriving DecidableEq, Repr

/-- Decoded derived proof payload fields (label map in expanded form):
`(baseSignature, publicKey, signatures, labelMap, mandatoryIndexes)`. -/
structure DerivedProofParams where
  baseSignature : Bytes
  publicKey : Bytes
  signatures : List Bytes
  labelMap : List (Str × Str)
  mandatoryIndexes : List ℤ
deriving DecidableEq, Repr

/-- The term `_validateBaseProofParams`, with checks in source order.  The
`instanceof Uint8Array` / `Array.isArray` / `typeof p === "string"` parts of
each test hold by typing in this embedding; the length checks remain. -/
def _validateBaseProofParams (p : BaseProofParams) : Except JsError Unit :=
  if p.baseSignature.length ≠ 64 then
    .error (JsError.mk "TypeError" "\"baseSignature\" must be a Uint8Array of length 64.")
  else if p.publicKey.length ≠ 35 then
    .error (JsError.mk "TypeError" "\"publicKey\" must be a Uint8Array of length 35.")
  else if p.hmacKey.length ≠ 32 then
    .error (JsError.mk "TypeError" "\"hmacKey\" must be a Uint8Array of length 32.")
  else if ¬ p.signatures.all (fun s => s.length = 64) then
    .error (JsError.mk "TypeError"
      "\"signatures\" must be an array of Uint8Arrays, each of length 64.")
  else .ok ()

/-- The term `_validateDerivedProofParams`, with checks in source order.  Note the
source checks `signatures` only for `instanceof Uint8Array` (no length),
`labelMap` only for being a string-to-string `Map`, and `mandatoryIndexes`
only with `Number.isInteger`; those three tests hold by typing here, so only
the two length checks remain. -/
def _validateDerivedProofParams (p : DerivedProofParams) : Except JsError Unit :=
  if p.baseSignature.length ≠ 64 then
    .error (JsError.mk "TypeError" "\"baseSignature\" must be a Uint8Array of length 64.")
  else if p.publicKey.length ≠ 35 then
    .error (JsError.mk "TypeError" "\"publicKey\" must be a Uint8Array of length 35.")
  else .ok ()

/-- The term `_validateBaseVerifyDataParams`, with checks in source order. -/
def _validateBaseVerifyDataParams (proofHash publicKey mandatoryHash : Bytes) :
    Except JsError Unit :=
  if proofHash.length ≠ 32 then
    .error (JsError.mk "TypeError" "\"proofHash\" must be a Uint8Array of length 32.")
  else if publicKey.length ≠ 35 then
    .error (JsError.mk "TypeError" "\"publicKey\" must be a Uint8Array of length 35.")
  else if mandatoryHash.length ≠ 32 then
    .error (JsError.mk "TypeError" "\"mandatoryHash\" must be a Uint8Array of length 32.")
  else .ok ()

/-- The term `serializeBaseVerifyData`: validate, then concatenate
`proofHash ++ publicKey ++ mandatoryHash` (`_concatBuffers`). -/
def serializeBaseVerifyData (proofHash publicKey mandatoryHash : Bytes) :
    Except JsError Bytes :=
  match _validateBaseVerifyDataParams proofHash publicKey mandatoryHash with
  | .error e => .error e
  | .ok _ => .ok (proofHash ++ publicKey ++ mandatoryHash)

/-- The `c14n` prefix of expanded label-map keys. -/
def c14nPre : Str := ['c', '1', '4', 'n']

/-- The term `_compressLabelMap`: for each entry, `parseInt(k.slice(4), 10)` becomes
the key (NaN modelled as `none`) and the base64url-decoded `v.slice(1)`
becomes the value; a value that fails to decode makes the whole call throw,
modelled as `none`. -/
def _compressLabelMap (b64dec : Str → Option Bytes) :
    List (Str × Str) → Option (List (Option ℕ × Bytes))
  | [] => some []
  | kv :: rest =>
    match b64dec (kv.2.drop 1) with
    | none => none
    | some b =>
      match _compressLabelMap b64dec rest with
      | none => none
      | some m => some ((jsParseInt (kv.1.drop 4), b) :: m)

/-- The JS string interpolation of a compressed label-map key (a number,
possibly NaN). -/
def compressedKeyStr : Option ℕ → Str
  | some n => decReprList n
  | none => ['N', 'a', 'N']

/-- The term `_decompressLabelMap`: rebuild `c14n<k>` keys and re-add the `u`
multibase tag to the re-encoded value bytes. -/
def _decompressLabelMap (b64enc : Bytes → Str) (m : List (Option ℕ × Bytes)) :
    List (Str × Str) :=
  m.map (fun kv => (c14nPre ++ compressedKeyStr kv.1, 'u' :: b64enc kv.2))

/-- The object handed to the parsers; only its `proofValue` property is
read.  `none` models a missing or non-string `proofValue` (either way the
first `proof.proofValue.slice(1)` access throws). -/
structure ProofObj where
  proofValue : Option Str
deriving DecidableEq

/-- Decoded CBOR body of a base payload, in wire order. -/
abbrev BasePayload := Bytes × Bytes × Bytes × List Bytes × List Str

/-- Decoded CBOR body of a derived payload, in wire order (label map in
compressed form). -/
abbrev DerivedPayload := Bytes × Bytes × List Bytes × List (Option ℕ × Bytes) × List ℤ

/-- The CBOR payload tuple of a base proof. -/
def basePayloadOf (p : BaseProofParams) : BasePayload :=
  (p.baseSignature, p.publicKey, p.hmacKey, p.signatures, p.mandatoryPointers)

/-- The uniform message of the wrapper error raised by both parsers. -/
def uniformProofValueMsg : String :=
  "The proof does not include a valid \"proofValue\" property."

/-- The `catch` block shared by both parsers: any error becomes a
`TypeError` with the uniform message, carrying the original error as its
`cause`. -/
def wrapProofValueError {α : Type} : Except JsError α → Except JsError α
  | .ok a => .ok a
  | .error e => .error (JsError.withCause "TypeError" uniformProofValueMsg e)

/-- Body of the `try` block of `parseBaseProofValue`: decode the multibase
envelope, check the `u` tag (`_assertProofValue`) and the base CBOR prefix
(`_isBaseProofValue`), CBOR-decode the rest, validate, return the params.
`b64dec` and `cborDec` stand for the external `base64url-universal` and
`cborg` decoders. -/
def parseBaseProofValueInner (b64dec : Str → Option Bytes)
    (cborDec : Bytes → Option BasePayload) (proof : ProofObj) :
    Except JsError BaseProofParams :=
  match proof.proofValue with
  | none => .error (JsError.mk "TypeError" "proof.proofValue.slice is not a function")
  | some pv =>
    match b64dec (pv.drop 1) with
    | none => .error (JsError.mk "TypeError" "invalid base64url encoding")
    | some proofValue =>
      if pv.head? ≠ some 'u' then
        .error (JsError.mk "TypeError"
          ("The proof does not include a valid \"proofValue\" property; " ++
            "only base64url multibase encoding is supported."))
      else if _startsWithBytes proofValue CBOR_PREFIX_BASE = false then
        .error (JsError.mk "TypeError" "\"proof.proofValue\" must be a base proof.")
      else
        match cborDec (proofValue.drop CBOR_PREFIX_BASE.length) with
        | none => .error (JsError.mk "TypeError" "CBOR decoding failed")
        | some (bs, pk, hk, sigs, mps) =>
          match _validateBaseProofParams ⟨bs, pk, hk, sigs, mps⟩ with
          | .error e => .error e
          | .ok _ => .ok ⟨bs, pk, hk, sigs, mps⟩

/-- The term `parseBaseProofValue`: the `try` body wrapped by the uniform `catch`. -/
def parseBaseProofValue (b64dec : Str → Option Bytes)
    (cborDec : Bytes → Option BasePayload) (proof : ProofObj) :
    Except JsError BaseProofParams :=
  wrapProofValueError (parseBaseProofValueInner b64dec cborDec proof)

/-- Body of the `try` block of `parseDisclosureProofValue`; mirrors the base
parser but with the derived prefix, the compressed label map (decompressed
before validation) and `mandatoryIndexes`. -/
def parseDisclosureProofValueInner (b64enc : Bytes → Str) (b64dec : Str → Option Bytes)
    (cborDec : Bytes → Option DerivedPayload) (proof : ProofObj) :
    Except JsError DerivedProofParams :=
  match proof.proofValue with
  | none => .error (JsError.mk "TypeError" "proof.proofValue.slice is not a function")
  | some pv =>
    match b64dec (pv.drop 1) with
    | none => .error (JsError.mk "TypeError" "invalid base64url encoding")
    | some proofValue =>
      if pv.head? ≠ some 'u' then
        .error (JsError.mk "TypeError"
          ("The proof does not include a valid \"proofValue\" property; " ++
            "only base64url multibase encoding is supported."))
      else if _startsWithBytes proofValue CBOR_PREFIX_DERIVED = false then
        .error (JsError.mk "TypeError" "\"proof.proofValue\" must be a derived proof.")
      else
        match cborDec (proofValue.drop CBOR_PREFIX_DERIVED.length) with
        | none => .error (JsError.mk "TypeError" "CBOR decoding failed")
        | some (bs, pk, sigs, clm, mis) =>
          let lm := _decompressLabelMap b64enc clm
          match _validateDerivedProofParams ⟨bs, pk, sigs, lm, mis⟩ with
          | .error e => .error e
          | .ok _ => .ok ⟨bs, pk, sigs, lm, mis⟩

/-- The term `parseDisclosureProofValue`: the `try` body wrapped by the uniform
`catch`. -/
def parseDisclosureProofValue (b64enc : Bytes → Str) (b64dec : Str → Option Bytes)
    (cborDec : Bytes → Option DerivedPayload) (proof : ProofObj) :
    Except JsError DerivedProofParams :=
  wrapProofValueError (parseDisclosureProofValueInner b64enc b64dec cborDec proof)

/-- The term `serializeBaseProofValue`: validate, then emit
`u || base64url(CBOR_PREFIX_BASE || cbor(payload))`. -/
def serializeBaseProofValue (b64enc : Bytes → Str) (cborEnc : BasePayload → Bytes)
    (p : BaseProofParams) : Except JsError Str :=
  match _validateBaseProofParams p with
  | .error e => .error e
  | .ok _ => .ok ('u' :: b64enc (CBOR_PREFIX_BASE ++ cborEnc (basePayloadOf p)))

/-- The CBOR payload tuple of a derived proof, given its compressed label
map. -/
def derivedPayloadOf (p : DerivedProofParams) (clm : List (Option ℕ × Bytes)) :
    DerivedPayload :=
  (p.baseSignature, p.publicKey, p.signatures, clm, p.mandatoryIndexes)

/-- The term `serializeDisclosureProofValue`: validate, compress the label map, then
emit `u || base64url(CBOR_PREFIX_DERIVED || cbor(payload))`. -/
def serializeDisclosureProofValue (b64enc : Bytes → Str) (b64dec : Str → Option Bytes)
    (cborEnc : DerivedPayload → Bytes) (p : DerivedProofParams) : Except JsError Str :=
  match _validateDerivedProofParams p with
  | .error e => .error e
  | .ok _ =>
    match _compressLabelMap b64dec p.labelMap with
    | none => .error (JsError.mk "TypeError" "invalid base64url encoding in label map")
    | some clm =>
      .ok ('u' :: b64enc (CBOR_PREFIX_DERIVED ++ cborEnc (derivedPayloadOf p clm)))

/-! ### Verifier (`verify.js`) -/

/-- Standard UTF-8 encoding of one character (the
`stringToUtf8Bytes` collaborator applied characterwise). -/
def utf8EncodeCharBytes (c : Char) : Bytes :=
  let n := c.toNat
  if n < 0x80 then [n]
  else if n < 0x800 then [0xC0 + n / 64, 0x80 + n % 64]
  else if n < 0x10000 then [0xE0 + n / 4096, 0x80 + (n / 64) % 64, 0x80 + n % 64]
  else [0xF0 + n / 262144, 0x80 + (n / 4096) % 64, 0x80 + (n / 64) % 64, 0x80 + n % 64]

/-- The term `stringToUtf8Bytes(nq)`: the UTF-8 byte sequence of a statement. -/
def stringToUtf8Bytes (s : Str) : Bytes := s.bind utf8EncodeCharBytes

/-- The `data` object consumed by `_multiverify` (produced by
`_createVerifyData`). -/
structure MultiVerifyData where
  baseSignature : Bytes
  proofHash : Bytes
  publicKey : Bytes
  signatures : List Bytes
  nonMandatory : List Str
  mandatoryHash : Bytes

/-- The count-mismatch error thrown by `_multiverify`. -/
def countMismatchError (sigCount msgCount : ℕ) : JsError :=
  JsError.mk "Error"
    ("Signature count (" ++ toString sigCount ++ ") does not match " ++
      "non-mandatory message count (" ++ toString msgCount ++ ").")

/-- The term `_multiverify`: count check, per-statement verification of
`signatures[i]` against the UTF-8 bytes of `nonMandatory[i]` with the
statement key (`sv`), then the base-signature check over the serialized
verify data with the long-term identity key (`bv`).  `sv` models
`localKeyPair.verifier().verify` (a function of the decoded `publicKey`)
and `bv` models `verifier.verify`; both take the data bytes and then the
signature bytes. -/
def _multiverify (sv bv : Bytes → Bytes → Bool) (d : MultiVerifyData) :
    Except JsError Bool :=
  if d.signatures.length ≠ d.nonMandatory.length then
    .error (countMismatchError d.signatures.length d.nonMandatory.length)
  else
    let results := List.zipWith (fun sg nq => sv (stringToUtf8Bytes nq) sg)
      d.signatures d.nonMandatory
    if results.any (fun r => !r) then .ok false
    else
      match serializeBaseVerifyData d.proofHash d.publicKey d.mandatoryHash with
      | .error e => .error e
      | .ok toVerify => .ok (bv toVerify d.baseSignature)

/-! ### Discloser (`_createDisclosureData` / `_derive`)

The `canonicalizeAndGroup`, `selectJsonLd`, `canonicalize` and
`stripBlankNodePrefixes` collaborators come from `di-sd-primitives` and are
abstracted as function parameters (already closed over the document and the
HMAC labeling).  Group membership data is modelled by the key lists of the
`matching` maps. -/

/-- The three groups returned by `canonicalizeAndGroup`, as the key lists of
their `matching` maps (absolute statement indexes, in map iteration
order). -/
structure GroupsOut where
  mandatoryMatching : List ℕ
  selectiveMatching : List ℕ
  combinedMatching : List ℕ

/-- The value returned by `_createDisclosureData`. -/
structure DisclosureData (Doc : Type) where
  baseSignature : Bytes
  publicKey : Bytes
  signatures : List Bytes
  labelMap : List (Str × Str)
  mandatoryIndexes : List ℤ
  revealDoc : Doc

/-- The term `_createDisclosureData`: parse the base proof, require something to be
selected, group via the canonicalizer, compute the relative mandatory
indexes and the filtered signatures, build the reveal document and the
verifier label map.  `canonGroup` receives the mandatory, selective and
combined pointer lists; `mkVerifierLabelMap` abstracts the
canonicalize/strip/compose steps that produce the verifier label map;
`selectJsonLd` abstracts reveal-document selection from the combined
pointers. -/
def _createDisclosureData {Doc : Type} (b64dec : Str → Option Bytes)
    (cborDec : Bytes → Option BasePayload)
    (canonGroup : List Str → List Str → List Str → GroupsOut)
    (mkVerifierLabelMap : List Str → GroupsOut → List (Str × Str))
    (selectJsonLd : List Str → Doc)
    (proof : ProofObj) (selectivePointers : List Str) :
    Except JsError (DisclosureData Doc) :=
  match parseBaseProofValue b64dec cborDec proof with
  | .error e => .error e
  | .ok p =>
    if ¬ (0 < p.mandatoryPointers.length ∨ 0 < selectivePointers.length) then
      .error (JsError.mk "Error" "Nothing selected for disclosure.")
    else
      let combinedPointers := p.mandatoryPointers ++ selectivePointers
      let g := canonGroup p.mandatoryPointers selectivePointers combinedPointers
      .ok { baseSignature := p.baseSignature
            publicKey := p.publicKey
            signatures := filterSignatures g.mandatoryMatching g.selectiveMatching p.signatures
            labelMap := mkVerifierLabelMap combinedPointers g
            mandatoryIndexes :=
              (computeMandatoryIndexes g.mandatoryMatching g.combinedMatching).map
                Int.ofNat
            revealDoc := selectJsonLd combinedPointers }

/-- A proof object as manipulated by `_derive`: the fields the source reads
or writes (`proofPurpose`, `proofValue`, `@context`) plus the remaining
fields that the `{...baseProof}` spread copies untouched. -/
structure DProof where
  id : Option Str
  proofPurpose : Str
  proofValue : Str
  atContext : Option Str
  rest : List (Str × Str)
deriving DecidableEq

/-- The value returned by `_derive`: the reveal document with the derived
proof attached to its `proof` property. -/
structure RevealedResult (Doc : Type) where
  doc : Doc
  proof : DProof

/-- The term `_derive` (from the purpose check onward; `_findProof` has already
selected `baseProof` from the proof set): create the disclosure data from
the base proof, serialize the derived proof value, attach a spread copy of
the base proof with `proofValue` replaced and `@context` deleted to the
reveal document. -/
def _derive {Doc : Type} (b64enc : Bytes → Str) (b64dec : Str → Option Bytes)
    (cborDecB : Bytes → Option BasePayload) (cborEncD : DerivedPayload → Bytes)
    (canonGroup : List Str → List Str → List Str → GroupsOut)
    (mkVerifierLabelMap : List Str → GroupsOut → List (Str × Str))
    (selectJsonLd : List Str → Doc)
    (baseProof : DProof) (purposeTerm : Str) (selectivePointers : List Str) :
    Except JsError (RevealedResult Doc) :=
  if baseProof.proofPurpose ≠ purposeTerm then
    .error (JsError.mk "Error"
      "Base proof purpose does not match purpose for derived proof.")
  else
    match _createDisclosureData b64dec cborDecB canonGroup mkVerifierLabelMap
      selectJsonLd ⟨some baseProof.proofValue⟩ selectivePointers with
    | .error e => .error e
    | .ok d =>
      match serializeDisclosureProofValue b64enc b64dec cborEncD
        ⟨d.baseSignature, d.publicKey, d.signatures, d.labelMap, d.mandatoryIndexes⟩ with
      | .error e => .error e
      | .ok pv =>
        .ok { doc := d.revealDoc
              proof := { baseProof with proofValue := pv, atContext := none } }

/-! ### Claim theorems -/

theorem enumFrom_pairwise_fst {α : Type} (r : ℕ) (l : List α) :
    (List.enumFrom r l).Pairwise (fun a b => a.1 < b.1) := by
  induction l generalizing r with
  | nil => exact List.Pairwise.nil
  | cons a t ih =>
    refine List.Pairwise.cons ?_ (ih (r + 1))
    intro x hx
    have := (List.mem_enumFrom hx).1
    simpa using by omega

/-- Claim C1: the Discloser keeps exactly the signatures whose original
absolute statement index (the cursor position after skipping mandatory
indexes) lies in the selective set; mandatory indexes consume no signature;
the `j`-th signature pairs with the `j`-th non-mandatory absolute index
(`nonMandIndexesFrom`), which enumerates the non-mandatory index space in
strictly ascending order without gaps; relative order is preserved since the
result is an order-preserving filter of the signature list. -/
theorem claim_C1_signature_filtering {α : Type} (mand sel : List ℕ) (sigs : List α) :
    filterSignatures mand sel sigs =
      ((sigs.zip (nonMandIndexesFrom mand sigs.length 0)).filter
        (fun p => decide (p.2 ∈ sel))).map Prod.fst ∧
    (nonMandIndexesFrom mand sigs.length 0).Pairwise (· < ·) ∧
    (∀ j ∈ nonMandIndexesFrom mand sigs.length 0, j ∉ mand) ∧
    (∀ j ∈ nonMandIndexesFrom mand sigs.length 0, ∀ k, k < j → k ∉ mand →
      k ∈ nonMandIndexesFrom mand sigs.length 0) := by
  refine ⟨filterSignaturesAux_eq mand sel sigs 0, (nonMandIndexesFrom_spec mand _ 0).2,
    ?_, ?_⟩
  · intro j hj
    exact ((nonMandIndexesFrom_spec mand _ 0).1 j hj).1
  · intro j hj k hkj hkm
    exact nonMandIndexesFrom_gapfree mand _ 0 j hj k (Nat.zero_le k) hkj hkm

/-- Witness for C1 at mandatory set `{1}`, selective set `{0, 2}` and three
signatures: the non-mandatory index space is `[0, 2, 3]`, so the first two
signatures are kept and index 2 is enumerated between 0 and 3. -/
theorem claim_C1_witness :
    filterSignatures [1] [0, 2] [[10], [20], [30]] = [[10], [20]] ∧
      (2 : ℕ) ∈ nonMandIndexesFrom [1] 3 0 := by
  have h := claim_C1_signature_filtering [1] [0, 2] ([[10], [20], [30]] : List Bytes)
  have e0 : nextFree [1] 0 = 0 := nextFree_of_not_mem (by decide)
  have e1 : nextFree [1] 1 = 2 := by
    rw [nextFree_of_mem (by decide), nextFree_of_not_mem (by decide)]
  have e3 : nextFree [1] 3 = 3 := nextFree_of_not_mem (by decide)
  have hl : nonMandIndexesFrom [1] 3 0 = [0, 2, 3] := by
    simp [nonMandIndexesFrom, e0, e1, e3]
  constructor
  · have h1 := h.1
    simp only [show ([[10], [20], [30]] : List Bytes).length = 3 from rfl, hl] at h1
    exact h1.trans (by decide)
  · have h3 : (3 : ℕ) ∈ nonMandIndexesFrom [1] 3 0 := by rw [hl]; decide
    exact h.2.2.2 3 h3 2 (by decide) (by decide)

/-- Claim C2: `mandatoryIndexes` records exactly the relative positions
(fresh indexes counted from 0 along the combined walk) whose absolute index
is also mandatory; the list is strictly increasing and bounded by the number
of combined (disclosed) statements. -/
theorem claim_C2_mandatory_indexes (mand combined : List ℕ) :
    computeMandatoryIndexes mand combined =
      ((List.enumFrom 0 combined).filter (fun p => decide (p.2 ∈ mand))).map Prod.fst ∧
    (computeMandatoryIndexes mand combined).Pairwise (· < ·) ∧
    ∀ x ∈ computeMandatoryIndexes mand combined, x < combined.length := by
  have he := computeMandatoryIndexesAux_eq mand combined 0
  refine ⟨he, ?_, ?_⟩
  · rw [computeMandatoryIndexes, he, List.pairwise_map]
    exact (enumFrom_pairwise_fst 0 combined).filter _
  · intro x hx
    rw [computeMandatoryIndexes, he, List.mem_map] at hx
    obtain ⟨p, hp, hfst⟩ := hx
    have hp2 := List.mem_of_mem_filter hp
    have := (List.mem_enumFrom hp2).2.1
    omega

/-- Witness for C2 at mandatory set `{0, 7}` and combined walk `[0, 3, 7]`:
relative indexes 0 and 2 are recorded, strictly increasing and below 3. -/
theorem claim_C2_witness :
    computeMandatoryIndexes [0, 7] [0, 3, 7] = [0, 2] ∧ (2 : ℕ) < 3 := by
  have h := claim_C2_mandatory_indexes [0, 7] [0, 3, 7]
  refine ⟨h.1.trans (by decide), ?_⟩
  exact h.2.2 2 (by rw [h.1]; decide)

/-- Claim C3: when the signature count differs from the non-mandatory
statement count, `_multiverify` throws the count-mismatch error regardless
of what either verifier would return (so no per-statement verification can
influence the outcome), and in particular never returns `false`. -/
theorem claim_C3_count_mismatch (sv bv : Bytes → Bytes → Bool) (d : MultiVerifyData)
    (h : d.signatures.length ≠ d.nonMandatory.length) :
    _multiverify sv bv d =
      .error (countMismatchError d.signatures.length d.nonMandatory.length) := by
  unfold _multiverify
  rw [if_pos h]

/-- Witness for C3: one signature and zero non-mandatory statements. -/
theorem claim_C3_witness :
    _multiverify (fun _ _ => true) (fun _ _ => true)
        { baseSignature := [], proofHash := [], publicKey := [], signatures := [[0]],
          nonMandatory := [], mandatoryHash := [] } =
      .error (countMismatchError 1 0) :=
  claim_C3_count_mismatch (fun _ _ => true) (fun _ _ => true) _ (by decide)

/-- Claim C4: once the count check passes on a well-formed input, the result
is the conjunction of all per-statement checks (each `signatures[i]` against
the UTF-8 bytes of `nonMandatory[i]` under the statement key `sv`) with the
base-signature check of `baseSignature` over
`proofHash ++ publicKey ++ mandatoryHash` under the identity key `bv`;
if any statement check is false the result is `false`. -/
theorem claim_C4_verification_result (sv bv : Bytes → Bytes → Bool) (d : MultiVerifyData)
    (hlen : d.signatures.length = d.nonMandatory.length)
    (hph : d.proofHash.length = 32) (hpk : d.publicKey.length = 35)
    (hmh : d.mandatoryHash.length = 32) :
    _multiverify sv bv d = .ok
      ((List.zipWith (fun sg nq => sv (stringToUtf8Bytes nq) sg)
          d.signatures d.nonMandatory).all (fun r => r) &&
        bv (d.proofHash ++ d.publicKey ++ d.mandatoryHash) d.baseSignature) := by
  unfold _multiverify
  rw [if_neg (by omega)]
  by_cases hA : (List.zipWith (fun sg nq => sv (stringToUtf8Bytes nq) sg)
      d.signatures d.nonMandatory).any (fun r => !r) = true
  · rw [if_pos hA]
    obtain ⟨r, hr, hneg⟩ := List.any_eq_true.mp hA
    have hrf : r = false := by simpa using hneg
    have : (List.zipWith (fun sg nq => sv (stringToUtf8Bytes nq) sg)
        d.signatures d.nonMandatory).all (fun r => r) = false := by
      rw [List.all_eq_false]
      exact ⟨r, hr, by simp [hrf]⟩
    rw [this]
    simp
  · rw [if_neg hA]
    have hall : (List.zipWith (fun sg nq => sv (stringToUtf8Bytes nq) sg)
        d.signatures d.nonMandatory).all (fun r => r) = true := by
      rw [List.all_eq_true]
      intro r hr
      by_contra hrf
      exact hA (List.any_eq_true.mpr ⟨r, hr, by simp at hrf ⊢; exact hrf⟩)
    rw [hall]
    simp only [serializeBaseVerifyData, _validateBaseVerifyDataParams, hph, hpk, hmh]
    simp

/-- Witness for C4: one matching statement and accepting verifiers on a
well-formed input; the result is `true && true`. -/
theorem claim_C4_witness :
    _multiverify (fun _ _ => true) (fun _ _ => true)
        { baseSignature := [9], proofHash := List.replicate 32 0,
          publicKey := List.replicate 35 0, signatures := [[1]],
          nonMandatory := [['a']], mandatoryHash := List.replicate 32 0 } =
      Except.ok true :=
  (claim_C4_verification_result (fun _ _ => true) (fun _ _ => true) _
    (by decide) (by simp) (by simp) (by simp)).trans rfl

/-- Claim C7: with an empty mandatory-pointer list and an empty
selective-pointer list, `_createDisclosureData` throws
`Nothing selected for disclosure.` whatever the canonicalization
collaborators would return (so before any disclosure data is computed);
with at least one pointer present the error is not raised and disclosure
data is produced. -/
theorem claim_C7_nothing_selected {Doc : Type} (b64dec : Str → Option Bytes)
    (cborDec : Bytes → Option BasePayload)
    (canonGroup : List Str → List Str → List Str → GroupsOut)
    (mkVLM : List Str → GroupsOut → List (Str × Str))
    (selectJsonLd : List Str → Doc) (proof : ProofObj)
    (selectivePointers : List Str) (p : BaseProofParams)
    (hp : parseBaseProofValue b64dec cborDec proof = .ok p) :
    ((p.mandatoryPointers = [] ∧ selectivePointers = []) →
      _createDisclosureData b64dec cborDec canonGroup mkVLM selectJsonLd proof
          selectivePointers =
        .error (JsError.mk "Error" "Nothing selected for disclosure.")) ∧
    ((p.mandatoryPointers ≠ [] ∨ selectivePointers ≠ []) →
      ∃ d, _createDisclosureData b64dec cborDec canonGroup mkVLM selectJsonLd proof
          selectivePointers = .ok d) := by
  constructor
  · rintro ⟨h1, h2⟩
    unfold _createDisclosureData
    rw [hp]
    simp only
    rw [if_pos (by simp [h1, h2])]
  · intro h
    have hc : 0 < p.mandatoryPointers.length ∨ 0 < selectivePointers.length := by
      rcases h with h | h
      · exact Or.inl (List.length_pos.mpr h)
      · exact Or.inr (List.length_pos.mpr h)
    unfold _createDisclosureData
    rw [hp]
    simp only
    rw [if_neg (not_not_intro hc)]
    exact ⟨_, rfl⟩

/-- Claim C10: whenever either parser fails, the reported error is the
single uniform `TypeError` with the fixed message, whose `cause` is the
original inner error; no other error shape ever escapes, so callers cannot
distinguish failure kinds by the raised type or message. -/
theorem claim_C10_uniform_parse_error (b64enc : Bytes → Str) (b64dec : Str → Option Bytes)
    (cborDecB : Bytes → Option BasePayload) (cborDecD : Bytes → Option DerivedPayload)
    (proof : ProofObj) (e : JsError) :
    (parseBaseProofValue b64dec cborDecB proof = .error e →
      ∃ cause, e = JsError.withCause "TypeError" uniformProofValueMsg cause) ∧
    (parseDisclosureProofValue b64enc b64dec cborDecD proof = .error e →
      ∃ cause, e = JsError.withCause "TypeError" uniformProofValueMsg cause) := by
  constructor
  · intro h
    unfold parseBaseProofValue wrapProofValueError at h
    cases hi : parseBaseProofValueInner b64dec cborDecB proof with
    | ok a => rw [hi] at h; exact absurd h (by simp)
    | error e2 =>
      rw [hi] at h
      simp only [Except.error.injEq] at h
      exact ⟨e2, h.symm⟩
  · intro h
    unfold parseDisclosureProofValue wrapProofValueError at h
    cases hi : parseDisclosureProofValueInner b64enc b64dec cborDecD proof with
    | ok a => rw [hi] at h; exact absurd h (by simp)
    | error e2 =>
      rw [hi] at h
      simp only [Except.error.injEq] at h
      exact ⟨e2, h.symm⟩

/-- Claim C8: the base and derived 3-byte payload prefixes are distinct
constants, and each parser rejects a payload that does not start with its
own prefix before any CBOR decoding happens: the raised error is fixed
whatever the CBOR decoder argument is, and its cause is the
must-be-a-base/derived-proof `TypeError`. -/
theorem claim_C8_prefix_check (b64enc : Bytes → Str) (b64dec : Str → Option Bytes)
    (cborDecB : Bytes → Option BasePayload) (cborDecD : Bytes → Option DerivedPayload)
    (pv : Str) (bytes : Bytes)
    (hdec : b64dec (pv.drop 1) = some bytes) (hu : pv.head? = some 'u') :
    CBOR_PREFIX_BASE ≠ CBOR_PREFIX_DERIVED ∧
    (_startsWithBytes bytes CBOR_PREFIX_DERIVED = false →
      parseDisclosureProofValue b64enc b64dec cborDecD ⟨some pv⟩ =
        .error (JsError.withCause "TypeError" uniformProofValueMsg
          (JsError.mk "TypeError" "\"proof.proofValue\" must be a derived proof."))) ∧
    (_startsWithBytes bytes CBOR_PREFIX_BASE = false →
      parseBaseProofValue b64dec cborDecB ⟨some pv⟩ =
        .error (JsError.withCause "TypeError" uniformProofValueMsg
          (JsError.mk "TypeError" "\"proof.proofValue\" must be a base proof."))) := by
  refine ⟨by decide, ?_, ?_⟩
  · intro hpre
    unfold parseDisclosureProofValue parseDisclosureProofValueInner wrapProofValueError
    simp only [hdec]
    rw [if_neg (by simp [hu]), if_pos hpre]
  · intro hpre
    unfold parseBaseProofValue parseBaseProofValueInner wrapProofValueError
    simp only [hdec]
    rw [if_neg (by simp [hu]), if_pos hpre]

/-- Claim C9: a successful `_derive` leaves the base proof untouched and
returns the reveal document carrying a fresh copy of the base proof in
which exactly `proofValue` was replaced (by the serialized disclosure data)
and `@context` was removed; every other field of the copy equals the
corresponding base proof field, and the proof is attached to the reveal
document produced by the disclosure step. -/
theorem claim_C9_derive_frame {Doc : Type} (b64enc : Bytes → Str)
    (b64dec : Str → Option Bytes) (cborDecB : Bytes → Option BasePayload)
    (cborEncD : DerivedPayload → Bytes)
    (canonGroup : List Str → List Str → List Str → GroupsOut)
    (mkVLM : List Str → GroupsOut → List (Str × Str))
    (selectJsonLd : List Str → Doc) (baseProof : DProof) (purposeTerm : Str)
    (selectivePointers : List Str) (r : RevealedResult Doc)
    (h : _derive b64enc b64dec cborDecB cborEncD canonGroup mkVLM selectJsonLd
        baseProof purposeTerm selectivePointers = .ok r) :
    ∃ d pv,
      _createDisclosureData b64dec cborDecB canonGroup mkVLM selectJsonLd
          ⟨some baseProof.proofValue⟩ selectivePointers = .ok d ∧
      serializeDisclosureProofValue b64enc b64dec cborEncD
          ⟨d.baseSignature, d.publicKey, d.signatures, d.labelMap,
            d.mandatoryIndexes⟩ = .ok pv ∧
      r.doc = d.revealDoc ∧
      r.proof = { baseProof with proofValue := pv, atContext := none } ∧
      r.proof.id = baseProof.id ∧ r.proof.proofPurpose = baseProof.proofPurpose ∧
      r.proof.rest = baseProof.rest ∧ r.proof.atContext = none := by
  unfold _derive at h
  by_cases hpu : baseProof.proofPurpose ≠ purposeTerm
  · rw [if_pos hpu] at h
    exact absurd h (by simp)
  · rw [if_neg hpu] at h
    cases hd : _createDisclosureData b64dec cborDecB canonGroup mkVLM selectJsonLd
        ⟨some baseProof.proofValue⟩ selectivePointers with
    | error e =>
      rw [hd] at h
      simp at h
    | ok d =>
      rw [hd] at h
      simp only at h
      cases hs : serializeDisclosureProofValue b64enc b64dec cborEncD
          ⟨d.baseSignature, d.publicKey, d.signatures, d.labelMap,
            d.mandatoryIndexes⟩ with
      | error e =>
        rw [hs] at h
        simp at h
      | ok pv =>
        rw [hs] at h
        simp only [Except.ok.injEq] at h
        refine ⟨d, pv, ?_, ?_, ?_, ?_, ?_, ?_, ?_, ?_⟩
        · rfl
        · exact hs
        · rw [← h]
        · rw [← h]
        · rw [← h]
        · rw [← h]
        · rw [← h]
        · rw [← h]

/-! ### Concrete collaborator instances used by witnesses -/

/-- A concrete injective byte-to-text codec standing in for the abstract
base64url encoder in witnesses. -/
def wB64enc (b : Bytes) : Str := b.map (fun n => Char.ofNat (n + 65))

/-- Left inverse of `wB64enc` on byte values. -/
def wB64dec (s : Str) : Option Bytes := some (s.map (fun c => c.toNat - 65))

/-- A tiny valid base proof parameter set with one mandatory pointer. -/
def pBase0 : BaseProofParams :=
  { baseSignature := List.replicate 64 0, publicKey := List.replicate 35 0,
    hmacKey := List.replicate 32 0, signatures := [],
    mandatoryPointers := [['/', 'a']] }

/-- The same parameter set with no mandatory pointers. -/
def pBase1 : BaseProofParams := { pBase0 with mandatoryPointers := [] }

/-- CBOR decoder instance returning the `pBase0` payload. -/
def wCborDecB0 : Bytes → Option BasePayload := fun _ => some (basePayloadOf pBase0)

/-- CBOR decoder instance returning the `pBase1` payload. -/
def wCborDecB1 : Bytes → Option BasePayload := fun _ => some (basePayloadOf pBase1)

/-- CBOR encoder instance for derived payloads. -/
def wCborEncD : DerivedPayload → Bytes := fun _ => []

/-- A proof-value string whose decoded bytes are exactly the base prefix. -/
def pvBase0 : Str := 'u' :: wB64enc CBOR_PREFIX_BASE

/-- A base proof object as fed to `_derive` in witnesses. -/
def baseProofW : DProof :=
  { id := none, proofPurpose := ['a'], proofValue := pvBase0,
    atContext := some ['C'], rest := [(['k'], ['v'])] }

/-- The revealed result computed by `_derive` in the C9 witness. -/
def rW : RevealedResult Unit :=
  { doc := ()
    proof := { baseProofW with
      proofValue := 'u' :: wB64enc (CBOR_PREFIX_DERIVED ++ []), atContext := none } }

/-- Witness for C7: a parsed base proof with no mandatory pointers and no
selective pointers makes the Discloser throw the nothing-selected error. -/
theorem claim_C7_witness :
    _createDisclosureData wB64dec wCborDecB1 (fun _ _ _ => ⟨[], [], []⟩)
        (fun _ _ => []) (fun _ => ()) ⟨some pvBase0⟩ [] =
      .error (JsError.mk "Error" "Nothing selected for disclosure.") :=
  (claim_C7_nothing_selected wB64dec wCborDecB1 (fun _ _ _ => ⟨[], [], []⟩)
    (fun _ _ => []) (fun _ => ()) ⟨some pvBase0⟩ [] pBase1 rfl).1 ⟨rfl, rfl⟩

/-- Witness for C8: a base-prefixed proof value fed to the derived parser
raises the wrapped must-be-a-derived-proof error. -/
theorem claim_C8_witness :
    parseDisclosureProofValue wB64enc wB64dec (fun _ => none) ⟨some pvBase0⟩ =
      .error (JsError.withCause "TypeError" uniformProofValueMsg
        (JsError.mk "TypeError" "\"proof.proofValue\" must be a derived proof.")) :=
  (claim_C8_prefix_check wB64enc wB64dec (fun _ => none) (fun _ => none) pvBase0
    CBOR_PREFIX_BASE rfl rfl).2.1 (by decide)

/-- Witness for C9: a full successful `_derive` run; the attached proof has
`@context` removed and keeps the other base proof fields. -/
theorem claim_C9_witness :
    rW.proof.atContext = none ∧ rW.proof.rest = baseProofW.rest := by
  obtain ⟨d, pv, -, -, -, -, -, -, hrest, hctx⟩ :=
    claim_C9_derive_frame wB64enc wB64dec wCborDecB0 wCborEncD
      (fun _ _ _ => ⟨[], [], []⟩) (fun _ _ => []) (fun _ => ()) baseProofW ['a'] []
      rW rfl
  exact ⟨hctx, hrest⟩

/-- The error produced by parsing a proof object without `proofValue`. -/
def uniformFailE : JsError :=
  JsError.withCause "TypeError" uniformProofValueMsg
    (JsError.mk "TypeError" "proof.proofValue.slice is not a function")

/-- Witness for C10: a missing `proofValue` fails and the raised error is
the uniform wrapper with a cause. -/
theorem claim_C10_witness :
    ∃ cause, uniformFailE = JsError.withCause "TypeError" uniformProofValueMsg cause :=
  (claim_C10_uniform_parse_error wB64enc wB64dec (fun _ => none) (fun _ => none)
    ⟨none⟩ uniformFailE).1 rfl

/-! ### Round trips (claim C5) -/

/-- A canonical label-map entry: a key `c14n<N>` (standard decimal, no
leading zeros) and a `u`-tagged value lying in the image of the base64url
encoder. -/
def canonicalEntry (b64enc : Bytes → Str) (b64dec : Str → Option Bytes)
    (kv : Str × Str) : Prop :=
  ∃ n b, kv.1 = c14nPre ++ decReprList n ∧ kv.2 = 'u' :: b64enc b ∧
    b64dec (b64enc b) = some b

theorem labelMap_roundtrip (b64enc : Bytes → Str) (b64dec : Str → Option Bytes)
    (m : List (Str × Str)) (hm : ∀ kv ∈ m, canonicalEntry b64enc b64dec kv) :
    ∃ m2, _compressLabelMap b64dec m = some m2 ∧ _decompressLabelMap b64enc m2 = m := by
  induction m with
  | nil => exact ⟨[], rfl, rfl⟩
  | cons kv t ih =>
    obtain ⟨n, b, hk, hv, hrt⟩ := hm kv (List.mem_cons_self kv t)
    obtain ⟨m2, hc, hd⟩ := ih (fun e he => hm e (List.mem_cons_of_mem kv he))
    refine ⟨(some n, b) :: m2, ?_, ?_⟩
    · unfold _compressLabelMap
      rw [hv, hk]
      simp only [List.drop_succ_cons, List.drop_zero]
      rw [hrt, hc, List.drop_left' (by rfl), jsParseInt_decReprList]
    · unfold _decompressLabelMap
      simp only [List.map_cons]
      unfold _decompressLabelMap at hd
      rw [hd, show compressedKeyStr (some n) = decReprList n from rfl, ← hk, ← hv]

theorem parse_serialize_base (b64enc : Bytes → Str) (b64dec : Str → Option Bytes)
    (cborEnc : BasePayload → Bytes) (cborDec : Bytes → Option BasePayload)
    (p : BaseProofParams)
    (hval : _validateBaseProofParams p = .ok ())
    (hb64 : b64dec (b64enc (CBOR_PREFIX_BASE ++ cborEnc (basePayloadOf p))) =
      some (CBOR_PREFIX_BASE ++ cborEnc (basePayloadOf p)))
    (hcbor : cborDec (cborEnc (basePayloadOf p)) = some (basePayloadOf p)) :
    serializeBaseProofValue b64enc cborEnc p =
      .ok ('u' :: b64enc (CBOR_PREFIX_BASE ++ cborEnc (basePayloadOf p))) ∧
    parseBaseProofValue b64dec cborDec
        ⟨some ('u' :: b64enc (CBOR_PREFIX_BASE ++ cborEnc (basePayloadOf p)))⟩ =
      .ok p := by
  obtain ⟨bs, pk, hk, sigs, mps⟩ := p
  simp only [basePayloadOf] at hb64 hcbor ⊢
  constructor
  · unfold serializeBaseProofValue
    rw [hval]
    simp only [basePayloadOf]
  · unfold parseBaseProofValue parseBaseProofValueInner wrapProofValueError
    simp only [List.drop_succ_cons, List.drop_zero]
    rw [hb64]
    simp only [List.head?_cons]
    rw [if_neg (by simp)]
    rw [if_neg (by rw [startsWithBytes_append]; simp)]
    rw [List.drop_left, hcbor]
    simp only
    rw [hval]

theorem parse_serialize_derived (b64enc : Bytes → Str) (b64dec : Str → Option Bytes)
    (cborEnc : DerivedPayload → Bytes) (cborDec : Bytes → Option DerivedPayload)
    (q : DerivedProofParams)
    (hval : _validateDerivedProofParams q = .ok ())
    (hcanon : ∀ kv ∈ q.labelMap, canonicalEntry b64enc b64dec kv) :
    ∃ clm, _compressLabelMap b64dec q.labelMap = some clm ∧
      (cborDec (cborEnc (derivedPayloadOf q clm)) = some (derivedPayloadOf q clm) →
       b64dec (b64enc (CBOR_PREFIX_DERIVED ++ cborEnc (derivedPayloadOf q clm))) =
         some (CBOR_PREFIX_DERIVED ++ cborEnc (derivedPayloadOf q clm)) →
       serializeDisclosureProofValue b64enc b64dec cborEnc q =
         .ok ('u' :: b64enc (CBOR_PREFIX_DERIVED ++ cborEnc (derivedPayloadOf q clm))) ∧
       parseDisclosureProofValue b64enc b64dec cborDec
           ⟨some ('u' :: b64enc (CBOR_PREFIX_DERIVED ++ cborEnc (derivedPayloadOf q clm)))⟩ =
         .ok q) := by
  obtain ⟨m2, hc, hd⟩ := labelMap_roundtrip b64enc b64dec q.labelMap hcanon
  refine ⟨m2, hc, ?_⟩
  intro hcbor hb64
  obtain ⟨bs, pk, sigs, lm, mis⟩ := q
  simp only [derivedPayloadOf] at hcbor hb64 ⊢
  simp only at hc hd hval hcanon
  constructor
  · unfold serializeDisclosureProofValue
    rw [hval, hc]
    simp only [derivedPayloadOf]
  · unfold parseDisclosureProofValue parseDisclosureProofValueInner wrapProofValueError
    simp only [List.drop_succ_cons, List.drop_zero]
    rw [hb64]
    simp only [List.head?_cons]
    rw [if_neg (by simp)]
    rw [if_neg (by rw [startsWithBytes_append]; simp)]
    rw [List.drop_left, hcbor]
    simp only
    rw [hd, hval]

/-- Claim C5: for valid base proof parameters, parsing the serialized base
proof value returns the original parameters; the same round trip holds for
valid derived proof parameters whose label map is canonical; and label-map
compression followed by decompression is the identity on every label map
with `c14n<N>` keys and `u`-tagged base64url values.  The external base64url
and CBOR codecs enter as function parameters constrained by the pointwise
left-inverse facts the round trip needs. -/
theorem claim_C5_roundtrip
    (b64enc : Bytes → Str) (b64dec : Str → Option Bytes)
    (cborEncB : BasePayload → Bytes) (cborDecB : Bytes → Option BasePayload)
    (cborEncD : DerivedPayload → Bytes) (cborDecD : Bytes → Option DerivedPayload)
    (p : BaseProofParams) (q : DerivedProofParams) (m : List (Str × Str))
    (hvalB : _validateBaseProofParams p = .ok ())
    (hb64B : b64dec (b64enc (CBOR_PREFIX_BASE ++ cborEncB (basePayloadOf p))) =
      some (CBOR_PREFIX_BASE ++ cborEncB (basePayloadOf p)))
    (hcborB : cborDecB (cborEncB (basePayloadOf p)) = some (basePayloadOf p))
    (hvalD : _validateDerivedProofParams q = .ok ())
    (hcanonQ : ∀ kv ∈ q.labelMap, canonicalEntry b64enc b64dec kv)
    (hcanonM : ∀ kv ∈ m, canonicalEntry b64enc b64dec kv) :
    (∃ s, serializeBaseProofValue b64enc cborEncB p = .ok s ∧
      parseBaseProofValue b64dec cborDecB ⟨some s⟩ = .ok p) ∧
    (∃ clm, _compressLabelMap b64dec q.labelMap = some clm ∧
      (cborDecD (cborEncD (derivedPayloadOf q clm)) = some (derivedPayloadOf q clm) →
       b64dec (b64enc (CBOR_PREFIX_DERIVED ++ cborEncD (derivedPayloadOf q clm))) =
         some (CBOR_PREFIX_DERIVED ++ cborEncD (derivedPayloadOf q clm)) →
       ∃ s, serializeDisclosureProofValue b64enc b64dec cborEncD q = .ok s ∧
         parseDisclosureProofValue b64enc b64dec cborDecD ⟨some s⟩ = .ok q)) ∧
    (∃ m2, _compressLabelMap b64dec m = some m2 ∧ _decompressLabelMap b64enc m2 = m) := by
  refine ⟨?_, ?_, labelMap_roundtrip b64enc b64dec m hcanonM⟩
  · obtain ⟨hs, hp⟩ := parse_serialize_base b64enc b64dec cborEncB cborDecB p
      hvalB hb64B hcborB
    exact ⟨_, hs, hp⟩
  · obtain ⟨clm, hc, himp⟩ := parse_serialize_derived b64enc b64dec cborEncD cborDecD q
      hvalD hcanonQ
    refine ⟨clm, hc, ?_⟩
    intro h1 h2
    obtain ⟨hs, hp⟩ := himp h1 h2
    exact ⟨_, hs, hp⟩

/-- The single-digit decimal representation of zero. -/
theorem decReprList_zero : decReprList 0 = ['0'] := by
  rw [decReprList, dif_pos (by norm_num)]
  decide

/-- A tiny valid derived proof parameter set with one canonical label-map
entry (`c14n0` mapped to the `u`-tagged encoding of the empty byte string
under `wB64enc`). -/
def qDer0 : DerivedProofParams :=
  { baseSignature := List.replicate 64 0, publicKey := List.replicate 35 0,
    signatures := [], labelMap := [(c14nPre ++ ['0'], ['u'])],
    mandatoryIndexes := [] }

/-- CBOR encoder instance for base payloads used in the C5 witness. -/
def wCborEncB : BasePayload → Bytes := fun _ => []

/-- CBOR decoder instance returning the compressed `qDer0` payload. -/
def wCborDecD0 : Bytes → Option DerivedPayload :=
  fun _ => some (derivedPayloadOf qDer0 [(some 0, [])])

/-- Witness for C5: a full base round trip through the concrete codec
instances. -/
theorem claim_C5_witness :
    ∃ s, serializeBaseProofValue wB64enc wCborEncB pBase0 = .ok s ∧
      parseBaseProofValue wB64dec wCborDecB0 ⟨some s⟩ = .ok pBase0 := by
  have hcanon : ∀ kv ∈ qDer0.labelMap, canonicalEntry wB64enc wB64dec kv := by
    intro kv hkv
    rw [show qDer0.labelMap = [(c14nPre ++ ['0'], ['u'])] from rfl,
      List.mem_singleton] at hkv
    subst hkv
    exact ⟨0, [], by rw [decReprList_zero], rfl, rfl⟩
  exact (claim_C5_roundtrip wB64enc wB64dec wCborEncB wCborDecB0 wCborEncD wCborDecD0
    pBase0 qDer0 [] rfl rfl rfl rfl hcanon (fun kv hkv => absurd hkv (by simp))).1

/-! ### Claim C6 (derived-params validation) -/

/-- Derived proof parameters with a 63-byte per-statement signature and a
label-map entry whose key does not match `c14n<N>`. -/
def qBad : DerivedProofParams :=
  { baseSignature := List.replicate 64 0, publicKey := List.replicate 35 0,
    signatures := [List.replicate 63 0], labelMap := [(['x'], ['y'])],
    mandatoryIndexes := [] }

/-- Counterexample to C6: `_validateDerivedProofParams` accepts parameters
whose per-statement signature is not 64 bytes and whose label-map key does
not match the `c14n<N>` pattern (the source checks signatures only with
`instanceof Uint8Array` and the label map only for being a string-to-string
map), so the claimed rejections do not happen. -/
theorem claim_C6_counterexample :
    _validateDerivedProofParams qBad = Except.ok () ∧
      qBad.signatures.all (fun s => decide (s.length = 64)) = false ∧
      c14nPre.isPrefixOf (qBad.labelMap.headD ([], [])).1 = false := by
  refine ⟨rfl, by decide, by decide⟩

/-- Claim C6 as amended: derived-params validation rejects exactly a
`baseSignature` that is not 64 bytes or a `publicKey` that is not 35 bytes,
naming the offending field; the signature lengths, the label-map key
pattern and the multibase value tag are not checked (those fields are only
type-checked, which holds by construction here); the check still runs
before encoding, so a validation error propagates out of
`serializeDisclosureProofValue` unchanged. -/
theorem claim_C6_amended (p : DerivedProofParams) :
    (_validateDerivedProofParams p = .ok () ↔
      p.baseSignature.length = 64 ∧ p.publicKey.length = 35) ∧
    (p.baseSignature.length ≠ 64 →
      _validateDerivedProofParams p = .error (JsError.mk "TypeError"
        "\"baseSignature\" must be a Uint8Array of length 64.")) ∧
    (p.baseSignature.length = 64 → p.publicKey.length ≠ 35 →
      _validateDerivedProofParams p = .error (JsError.mk "TypeError"
        "\"publicKey\" must be a Uint8Array of length 35.")) ∧
    (∀ (b64enc : Bytes → Str) (b64dec : Str → Option Bytes)
      (cborEncD : DerivedPayload → Bytes) (e : JsError),
      _validateDerivedProofParams p = .error e →
      serializeDisclosureProofValue b64enc b64dec cborEncD p = .error e) := by
  refine ⟨?_, ?_, ?_, ?_⟩
  · unfold _validateDerivedProofParams
    constructor
    · intro h
      by_cases h1 : p.baseSignature.length ≠ 64
      · rw [if_pos h1] at h
        exact absurd h (by simp)
      · rw [if_neg h1] at h
        by_cases h2 : p.publicKey.length ≠ 35
        · rw [if_pos h2] at h
          exact absurd h (by simp)
        · exact ⟨by omega, by omega⟩
    · rintro ⟨h1, h2⟩
      rw [if_neg (by omega), if_neg (by omega)]
  · intro h1
    unfold _validateDerivedProofParams
    rw [if_pos h1]
  · intro h1 h2
    unfold _validateDerivedProofParams
    rw [if_neg (by omega), if_pos h2]
  · intro b64enc b64dec cborEncD e h
    unfold serializeDisclosureProofValue
    rw [h]

/-- The term `qBad` with a short base signature. -/
def qBad2 : DerivedProofParams := { qBad with baseSignature := List.replicate 63 0 }

/-- Witness for the amended C6: a 63-byte `baseSignature` is rejected with
the error naming that field. -/
theorem claim_C6_witness :
    _validateDerivedProofParams qBad2 = .error (JsError.mk "TypeError"
      "\"baseSignature\" must be a Uint8Array of length 64.") :=
  (claim_C6_amended qBad2).2.1 (by decide)
